import Mathlib

/-!
Verification of the prettysusi widget library core: bounded-value controls
(SpinControl, Calendar, RadioBox), the menu build protocol and the timed-menu
state machine, the window close sequence, library initialization and the
attribute-redirection base class.  Each definition is a shallow embedding of
the corresponding Python source in src/.
-/

/-! ## SpinControl (src/abstract/widgets.py, AbstractSpinControl)

Values and bounds are Python ints, embedded as Int.  A bound of none embeds
the Python value None.
-/

structure Spin where
  min_value : Option Int
  max_value : Option Int
  value : Int
deriving Repr, DecidableEq

/-- Condition of the bound setters: the write is accepted when either side is
None or the pair is not inverted (lo less or equal hi). -/
def boundPairOk : Option Int → Option Int → Bool
  | none, _ => true
  | _, none => true
  | some lo, some hi => decide (lo ≤ hi)

/-- Embeds the value property setter of AbstractSpinControl: clip at the
minimum, then at the maximum, then store. -/
def Spin.set_value (s : Spin) (v : Int) : Spin :=
  let v1 := match s.min_value with
    | some m => if v < m then m else v
    | none => v
  let v2 := match s.max_value with
    | some m => if v1 > m then m else v1
    | none => v1
  { s with value := v2 }

/-- Embeds the min_value property setter: store the new minimum unless it
inverts the pair, then clamp the value through the value setter. -/
def Spin.set_min_value (s : Spin) (m : Option Int) : Spin :=
  let s1 := if boundPairOk m s.max_value then { s with min_value := m } else s
  match s1.min_value with
  | some mv => if s1.value < mv then s1.set_value mv else s1
  | none => s1

/-- Embeds the max_value property setter: store the new maximum unless it
inverts the pair, then clamp the value through the value setter. -/
def Spin.set_max_value (s : Spin) (m : Option Int) : Spin :=
  let s1 := if boundPairOk s.min_value m then { s with max_value := m } else s
  match s1.max_value with
  | some mv => if s1.value > mv then s1.set_value mv else s1
  | none => s1

/-- Embeds AbstractSpinControl.__init__.  The Python code pre-assigns _value
and _max_value, then runs the min_value, max_value and value property setters.
The attribute _min_value is not pre-assigned: when the first min_value write is
rejected (both bounds given and inverted), the clamp line of the setter reads
the still missing attribute and the constructor raises AttributeError, which
the embedding returns as an error. -/
def Spin.init (min_value max_value : Option Int) (value : Int) : Except String Spin :=
  if boundPairOk min_value max_value then
    let s : Spin := { min_value := min_value, max_value := max_value, value := value }
    let s := match s.min_value with
      | some mv => if s.value < mv then s.set_value mv else s
      | none => s
    let s := s.set_max_value max_value
    let s := s.set_value value
    .ok s
  else
    .error "AttributeError: object has no attribute _min_value"

inductive SpinMut where
  | set_min (m : Option Int)
  | set_max (m : Option Int)
  | set_val (v : Int)
deriving Repr, DecidableEq

def Spin.apply (s : Spin) : SpinMut → Spin
  | .set_min m => s.set_min_value m
  | .set_max m => s.set_max_value m
  | .set_val v => s.set_value v

/-- Within-bounds invariant of the spin control: the value respects each
bound that is set. -/
def Spin.invariant (s : Spin) : Bool :=
  (match s.min_value with | some m => decide (m ≤ s.value) | none => true) &&
  (match s.max_value with | some m => decide (s.value ≤ m) | none => true)

/-! ## Calendar (src/abstract/widgets.py, AbstractCalendar)

Dates are totally ordered; the embedding uses Int with the yyyymmdd encoding
for the concrete instances, which preserves the order of datetime.date.
-/

structure Calendar where
  lower_date : Option Int
  upper_date : Option Int
  selected_date : Int
deriving Repr, DecidableEq

/-- Embeds the selected_date property setter: the date is stored only when it
lies within both set bounds, otherwise the write is ignored. -/
def Calendar.set_selected_date (s : Calendar) (date : Int) : Calendar :=
  if (match s.lower_date with | some lo => decide (lo ≤ date) | none => true) &&
     (match s.upper_date with | some hi => decide (date ≤ hi) | none => true) then
    { s with selected_date := date }
  else s

/-- Embeds the lower_date property setter: store the new lower bound unless it
inverts the pair, then clamp the selected date up to it if needed. -/
def Calendar.set_lower_date (s : Calendar) (lower : Option Int) : Calendar :=
  let s1 := if boundPairOk lower s.upper_date then { s with lower_date := lower } else s
  match s1.lower_date with
  | some lo => if s1.selected_date < lo then s1.set_selected_date lo else s1
  | none => s1

/-- Embeds the upper_date property setter: store the new upper bound unless it
inverts the pair, then clamp the selected date down to it if needed. -/
def Calendar.set_upper_date (s : Calendar) (upper : Option Int) : Calendar :=
  let s1 := if boundPairOk s.lower_date upper then { s with upper_date := upper } else s
  match s1.upper_date with
  | some hi => if s1.selected_date > hi then s1.set_selected_date hi else s1
  | none => s1

/-- Embeds AbstractCalendar.__init__.  A missing selected date defaults to
today.  The Python code pre-assigns _selected_date and _upper_date, then runs
the lower_date, upper_date and selected_date property setters.  As for the
spin control, _lower_date is not pre-assigned, so an initial inverted pair of
bounds makes the rejected lower_date write read the missing attribute and the
constructor raises AttributeError. -/
def Calendar.init (lower upper selected : Option Int) (today : Int) :
    Except String Calendar :=
  let sel := selected.getD today
  if boundPairOk lower upper then
    let s : Calendar := { lower_date := lower, upper_date := upper, selected_date := sel }
    let s := match s.lower_date with
      | some lo => if s.selected_date < lo then s.set_selected_date lo else s
      | none => s
    let s := s.set_upper_date upper
    let s := s.set_selected_date sel
    .ok s
  else
    .error "AttributeError: object has no attribute _lower_date"

inductive CalMut where
  | set_lower (d : Option Int)
  | set_upper (d : Option Int)
  | set_selected (d : Int)
deriving Repr, DecidableEq

def Calendar.apply (s : Calendar) : CalMut → Calendar
  | .set_lower d => s.set_lower_date d
  | .set_upper d => s.set_upper_date d
  | .set_selected d => s.set_selected_date d

/-- Within-bounds invariant of the calendar: the selected date respects each
bound that is set. -/
def Calendar.invariant (s : Calendar) : Bool :=
  (match s.lower_date with | some lo => decide (lo ≤ s.selected_date) | none => true) &&
  (match s.upper_date with | some hi => decide (s.selected_date ≤ hi) | none => true)

/-! ## RadioBox (src/abstract/widgets.py, AbstractRadioBox) -/

structure RadioBox where
  choices : List String
  selection : Int
deriving Repr, DecidableEq

/-- Embeds AbstractRadioBox.__init__: a missing choice list becomes
num_choices (at least one) empty strings, an empty list becomes one empty
string, and an out-of-range initial selection is forced to 0. -/
def RadioBox.init (choices : Option (List String)) (num_choices : Int)
    (selection : Int) : RadioBox :=
  let cs := match choices with
    | none => List.replicate (max num_choices 1).toNat ""
    | some [] => [""]
    | some cs => cs
  let sel := if 0 ≤ selection ∧ selection < (cs.length : Int) then selection else 0
  { choices := cs, selection := sel }

/-- Embeds the selection property setter: an out-of-range index is silently
ignored. -/
def RadioBox.set_selection (s : RadioBox) (selection : Int) : RadioBox :=
  if 0 ≤ selection ∧ selection < (s.choices.length : Int) then
    { s with selection := selection }
  else s

/-- Embeds AbstractRadioBox.set_choice: replace the string of one choice,
ignoring an out-of-range index. -/
def RadioBox.set_choice (s : RadioBox) (index : Int) (string : String) : RadioBox :=
  if 0 ≤ index ∧ index < (s.choices.length : Int) then
    { s with choices := s.choices.set index.toNat string }
  else s

/-- Embeds the qt backend RadioBox.__init__ (src/qt/widgets.py): after the
abstract initializer runs, the constructor creates the native buttons and then
executes the assignment of 0 to the selection property. -/
def RadioBox.qt_init (choices : Option (List String)) (num_choices : Int)
    (selection : Int) : RadioBox :=
  (RadioBox.init choices num_choices selection).set_selection 0

inductive RadioMut where
  | set_sel (i : Int)
  | set_choice (i : Int) (s : String)
deriving Repr, DecidableEq

def RadioBox.apply (s : RadioBox) : RadioMut → RadioBox
  | .set_sel i => s.set_selection i
  | .set_choice i str => s.set_choice i str

/-- Index-validity invariant of the radio box. -/
def RadioBox.invariant (s : RadioBox) : Bool :=
  decide (0 ≤ s.selection) && decide (s.selection < (s.choices.length : Int))

/-! ## Menu tree and TextTimedMenu flattening
(src/abstract/widgets.py, AbstractMenu and AbstractTextTimedMenu)

A menu item is a string, the SEPARATOR sentinel, or a nested menu; each entry
of the item list carries the item, its enabled flag and whether an own
on_item_click callback was supplied (callbacks are opaque, only their presence
matters for the wiring).
-/

inductive MenuTree where
  | str (label : String) : MenuTree
  | sep : MenuTree
  | node (items : List (MenuTree × Bool × Bool)) : MenuTree

/-- Click wiring of a constructed text item: no dispatch (disabled items and
separators), the own on_item_click callback, or the default dispatch through
the on_click handler of the menu. -/
inductive TTClick where
  | noDispatch
  | ownCallback
  | menuOnClick
deriving Repr, DecidableEq

/-- One label entry constructed by AbstractTextTimedMenu._append_item: its
label (none embeds the SEPARATOR, rendered as an empty label), whether it got
the enabled wiring (normal colors, highlight hover handlers, click dispatch)
or the disabled wiring (disabled colors, disabled hover handlers, no click
dispatch), and which click dispatch it got. -/
structure TTEntry where
  label : Option String
  enabled : Bool
  click : TTClick
deriving Repr, DecidableEq

mutual

/-- Embeds AbstractTextTimedMenu._append_item: a nested menu is flattened, its
items spliced inline with the enabled flag ANDed; a leaf becomes one text
entry, with the enabled wiring exactly when it is not the separator and is
enabled. -/
def appendItem : MenuTree → Bool → Bool → List TTEntry
  | .node items, is_enabled, _on_item_click => appendItems items is_enabled
  | .sep, _, _ => [{ label := none, enabled := false, click := .noDispatch }]
  | .str label, is_enabled, on_item_click =>
      if is_enabled then
        [{ label := some label, enabled := true,
           click := if on_item_click then .ownCallback else .menuOnClick }]
      else
        [{ label := some label, enabled := false, click := .noDispatch }]

/-- Embeds the splice loop over the items of a nested menu: each sub item is
appended with its enabled flag ANDed with the flag of the enclosing menu and
with its own callback. -/
def appendItems : List (MenuTree × Bool × Bool) → Bool → List TTEntry
  | [], _ => []
  | (item, sub_enabled, sub_click) :: rest, is_enabled =>
      appendItem item (sub_enabled && is_enabled) sub_click ++ appendItems rest is_enabled

end

mutual

/-- Number of leaf items (strings and separators) in a menu tree. -/
def MenuTree.leafCount : MenuTree → Nat
  | .node items => leafCountList items
  | _ => 1

def leafCountList : List (MenuTree × Bool × Bool) → Nat
  | [] => 0
  | t :: rest => t.1.leafCount + leafCountList rest

end

/-! ## Menu build protocol (src/abstract/widgets.py, AbstractMenu._build_menu) -/

/-- State of a menu relevant to the build protocol: its item list, the
inherit_on_click property, whether an on_click handler is present, and the
build-once flag. -/
structure MenuCore where
  items : List (MenuTree × Bool × Bool)
  inherit_on_click : Bool
  has_on_click : Bool
  built : Bool

def menuAlreadyBuiltMsg : String :=
  "The menu has already been built once. It is forbidden to built a menu more than once."

/-- Embeds AbstractMenu._build_menu for a text timed menu: a second build
raises, otherwise the on_click handler is inherited when requested, every item
is appended (producing the flat entry list of the text timed menu) and the
built flag is set. -/
def buildMenu (s : MenuCore) (inherited_given : Bool) :
    Except String (MenuCore × List TTEntry) :=
  if s.built then
    .error menuAlreadyBuiltMsg
  else
    let s1 := if s.inherit_on_click && inherited_given then
      { s with has_on_click := true } else s
    .ok ({ s1 with built := true }, appendItems s1.items true)

/-- Demonstration menu for the build protocol: fresh, unbuilt, no items. -/
def freshDemoMenu : MenuCore :=
  { items := [], inherit_on_click := false, has_on_click := false, built := false }

/-- Demonstration menu holding one disabled sub-menu with the two enabled
string items A and B. -/
def disabledSubMenuDemo : MenuCore :=
  { items := [(MenuTree.node [(MenuTree.str "A", true, false),
      (MenuTree.str "B", true, false)], false, false)],
    inherit_on_click := false, has_on_click := false, built := false }

/-! ## Dialog show-once (src/abstract/windows.py AbstractDialog.show_modal and
src/qt/frames.py Dialog.show_modal) -/

structure DialogState where
  shown : Bool
  return_value : Bool
deriving Repr, DecidableEq

def dialogShownMsg : String := "A dialog cannot be shown more than once."

/-- Embeds AbstractDialog.show_modal of the windows hierarchy
(src/abstract/windows.py): a second call raises, otherwise the shown flag is
set, the native dialog is shown and the return value reported. -/
def DialogState.show_modal (s : DialogState) : Except String (DialogState × Bool) :=
  if s.shown then
    .error dialogShownMsg
  else
    let s1 := { s with shown := true }
    .ok (s1, s1.return_value)

/-- Embeds Dialog.show_modal of the qt frames hierarchy (src/qt/frames.py),
which overrides the abstract method without consulting or setting the shown
flag: it updates the gui, runs the native modal loop and returns the return
value.  The native loop may rewrite return_value through the OK and Cancel
handlers, which the embedding takes as an oracle argument. -/
def DialogState.qt_frames_show_modal (s : DialogState) (native_result : Bool) :
    DialogState × Bool :=
  let s1 := { s with return_value := native_result }
  (s1, s1.return_value)

/-! ## Window close sequence (src/abstract/windows.py,
AbstractFrame._close_operations, with the synchronous event dispatch of the qt
and tk backends: signal emission and event_generate deliver the close event
before returning)

Windows are identified by naturals; the world is a map from identifier to
window record.
-/

structure WinRec where
  parent : Option Nat
  child_views : List Nat
  closed : Bool
  on_close_ran : Bool
deriving Repr, DecidableEq

def WTree : Type := Nat → WinRec

def WTree.set (s : WTree) (i : Nat) (r : WinRec) : WTree :=
  fun j => if j = i then r else s j

mutual

/-- Embeds a synchronous close of window w: _close_operations detaches the
window from the child list of its parent, closes its children (a Python for
loop over the live child_views list, which the children mutate as they detach
themselves), runs the on_close hook, and finally the native close destroys the
window.  Fuel bounds the recursion depth. -/
def closeWin : Nat → Nat → WTree → WTree
  | 0, _, s => s
  | fuel + 1, w, s =>
    let s1 := match (s w).parent with
      | some p => s.set p { s p with child_views := (s p).child_views.erase w }
      | none => s
    let s2 := closeChildren fuel w 0 s1
    let s3 := s2.set w { s2 w with on_close_ran := true }
    s3.set w { s3 w with closed := true }

/-- Embeds the child-closing for loop: index i walks the current child_views
list of window w, re-read from the state at every step exactly as the Python
iterator walks the list object that the closing children are mutating. -/
def closeChildren : Nat → Nat → Nat → WTree → WTree
  | 0, _, _, s => s
  | fuel + 1, w, i, s =>
    let cs := (s w).child_views
    if h : i < cs.length then
      closeChildren fuel w (i + 1) (closeWin fuel (cs.get ⟨i, h⟩) s)
    else s

end

/-- Demonstration world for the close sequence: window 0 has the two children
1 and 2, both childless. -/
def demoTree : WTree := fun i =>
  match i with
  | 0 => { parent := none, child_views := [1, 2], closed := false, on_close_ran := false }
  | 1 => { parent := some 0, child_views := [], closed := false, on_close_ran := false }
  | 2 => { parent := some 0, child_views := [], closed := false, on_close_ran := false }
  | _ => { parent := none, child_views := [], closed := false, on_close_ran := false }

/-! ## Timed menu state machine (src/abstract/widgets.py, AbstractTimedMenu
and the hover tracking of AbstractTextTimedMenu)

Time is a natural number of milliseconds; the timer field holds the expiry
instant of the armed close timer (the Timer object), none when no timer is
armed.  After the timer fires, the field keeps its dead Timer exactly as the
Python attribute does.  mouse_inside is the per-leaf-item hover dictionary.
-/

structure TimedMenuState where
  timer : Option Nat
  closed : Bool
  mouse_inside : List Bool
deriving Repr, DecidableEq

/-- Embeds AbstractTextTimedMenu._mouse_inside_widget: any child item
currently reports pointer-inside. -/
def TimedMenuState.mouse_inside_widget (s : TimedMenuState) : Bool :=
  s.mouse_inside.any id

inductive TMEvent where
  | command_close
  | enter_item (i : Nat)
  | leave_item (i : Nat)
  | force_close
  | timer_fire
deriving Repr, DecidableEq

/-- Cancelling events of the close timer: a pointer-enter on any item runs
prevent_close, and a forced close cancels the timer while closing. -/
def TMEvent.cancels : TMEvent → Bool
  | .enter_item _ => true
  | .force_close => true
  | _ => false

/-- Embeds one step of the timed menu at instant t with close delay d:
command_close arms the timer only when none is armed and no child item
reports pointer-inside; a pointer-enter on an item records the hover and runs
prevent_close, cancelling any armed timer; a pointer-leave records the hover
and runs command_close only when no child item reports pointer-inside any
more; force_close cancels the timer and closes; the timer firing closes. -/
def tmStep (d : Nat) (t : Nat) (s : TimedMenuState) : TMEvent → TimedMenuState
  | .command_close =>
      if s.timer = none ∧ s.mouse_inside_widget = false then
        { s with timer := some (t + d) }
      else s
  | .enter_item i =>
      let s1 := { s with mouse_inside := s.mouse_inside.set i true }
      { s1 with timer := none }
  | .leave_item i =>
      let s1 := { s with mouse_inside := s.mouse_inside.set i false }
      if s1.mouse_inside_widget = false then
        (if s1.timer = none then { s1 with timer := some (t + d) } else s1)
      else s1
  | .force_close =>
      { s with timer := none, closed := true }
  | .timer_fire =>
      { s with closed := true }

/-- Runs a timed trace of events. -/
def tmRun (d : Nat) (s : TimedMenuState) : List (Nat × TMEvent) → TimedMenuState
  | [] => s
  | (t, e) :: rest => tmRun d (tmStep d t s e) rest

/-- Validity of a timed trace from a state: the timer fires exactly at the
armed expiry instant. -/
def tmValidFrom (d : Nat) (s : TimedMenuState) : List (Nat × TMEvent) → Prop
  | [] => True
  | (t, e) :: rest =>
      (e = TMEvent.timer_fire → s.timer = some t) ∧ tmValidFrom d (tmStep d t s e) rest

/-! ## Library initialization (src/__init__.py, initialize) -/

def supported_gui : List String := ["wx", "qt", "tk"]

def already_initialized_error_message (gui : String) : String :=
  "The prettysusi library has already been initialized with GUI " ++ gui

def import_error_message (gui cause : String) : String :=
  "The required GUI " ++ gui ++ " cannot be loaded correctly\n" ++ cause

def invalid_gui_error_message (gui : String) : String :=
  "The required GUI " ++ gui ++ " is not valid\nUse one of the following: " ++
    String.intercalate ", " supported_gui

/-- Global module state of the library: the loaded gui type, and which backend
the module-level widget, window and layout classes currently come from (none
before the first successful initialization). -/
structure LibGlobals where
  gui_type : Option String
  loaded_backend : Option String
deriving Repr, DecidableEq

/-- Embeds the initialize function.  The import of the backend package is
external; import_ok reports, per backend, whether it succeeds.  The function
returns the new global state together with the raised error message, if any:
when the library was already initialized with a different gui the error is
raised before any global is touched; otherwise a supported backend is loaded
when its import succeeds, an unsupported name raises the invalid-gui error. -/
def initialize_library (import_ok : String → Bool) (st : LibGlobals)
    (gui_request : String) : LibGlobals × Option String :=
  if (match st.gui_type with | some g => g != gui_request | none => false) then
    (st, some (already_initialized_error_message (st.gui_type.getD "")))
  else if gui_request ∈ supported_gui then
    if import_ok gui_request then
      ({ gui_type := some gui_request, loaded_backend := some gui_request }, none)
    else
      (st, some (import_error_message gui_request "ImportError"))
  else
    (st, some (invalid_gui_error_message gui_request))

/-! ## Attribute redirection (src/__init__.py, BaseClass.__getattr__ and
_DummyObject.__getattr__) -/

inductive AttrAccess where
  | self_object
  | dummy_object
  | attribute_error (msg : String)
deriving Repr, DecidableEq

/-- Embeds BaseClass.__getattr__, which Python invokes for attribute names not
present on the object: a name that is not a supported gui raises
AttributeError; the name of the loaded gui returns the object itself; another
supported gui returns a dummy object. -/
def baseClassGetattr (gui_type : Option String) (class_name key : String) :
    AttrAccess :=
  if key ∉ supported_gui then
    .attribute_error (class_name ++ " object has no attribute " ++ key)
  else
    if some key = gui_type then .self_object else .dummy_object

/-- Embeds _DummyObject.__getattr__: every attribute is a function accepting
any positional and keyword arguments and returning None. -/
def dummyObjectAttr (_key : String) (_args : List String)
    (_kwargs : List (String × String)) : Option Unit :=
  none

/-- Bound-consistency of the spin control: the pair of set bounds is not
inverted. -/
def Spin.boundsOk (s : Spin) : Bool := boundPairOk s.min_value s.max_value

/-- Bound-consistency of the calendar: the pair of set bounds is not
inverted. -/
def Calendar.boundsOk (s : Calendar) : Bool := boundPairOk s.lower_date s.upper_date

/-!
Theorems.  The invariant lemmas follow the clamp-on-write policy through every
setter; the claim theorems come after their helper lemmas.
-/

theorem spin_set_value_invariant (s : Spin) (v : Int) (h : s.boundsOk = true) :
    (s.set_value v).invariant = true := by
  rcases s with ⟨mn, mx, v0⟩
  rcases mn with _ | mn <;> rcases mx with _ | mx <;>
    simp_all only [Spin.set_value, Spin.invariant, Spin.boundsOk, boundPairOk,
      Bool.and_eq_true, decide_eq_true_eq] <;>
    (repeat (first | trivial | omega | (split_ifs <;> (try simp_all))))

theorem spin_set_value_boundsOk (s : Spin) (v : Int) (h : s.boundsOk = true) :
    (s.set_value v).boundsOk = true := h

theorem spin_set_min_preserves (s : Spin) (m : Option Int)
    (hI : s.invariant = true) (hB : s.boundsOk = true) :
    (s.set_min_value m).invariant = true ∧ (s.set_min_value m).boundsOk = true := by
  rcases s with ⟨mn, mx, v0⟩
  rcases m with _ | m <;> rcases mn with _ | mn <;> rcases mx with _ | mx <;>
    simp_all only [Spin.set_min_value, Spin.set_value, Spin.invariant, Spin.boundsOk,
      boundPairOk, Bool.and_eq_true, decide_eq_true_eq] <;>
    (repeat (first | trivial | omega | (split_ifs <;> (try simp_all))))

theorem spin_set_max_preserves (s : Spin) (m : Option Int)
    (hI : s.invariant = true) (hB : s.boundsOk = true) :
    (s.set_max_value m).invariant = true ∧ (s.set_max_value m).boundsOk = true := by
  rcases s with ⟨mn, mx, v0⟩
  rcases m with _ | m <;> rcases mn with _ | mn <;> rcases mx with _ | mx <;>
    simp_all only [Spin.set_max_value, Spin.set_value, Spin.invariant, Spin.boundsOk,
      boundPairOk, Bool.and_eq_true, decide_eq_true_eq] <;>
    (repeat (first | trivial | omega | (split_ifs <;> (try simp_all))))

theorem spin_apply_preserves (s : Spin) (mu : SpinMut)
    (hI : s.invariant = true) (hB : s.boundsOk = true) :
    (s.apply mu).invariant = true ∧ (s.apply mu).boundsOk = true := by
  cases mu with
  | set_min m => exact spin_set_min_preserves s m hI hB
  | set_max m => exact spin_set_max_preserves s m hI hB
  | set_val v => exact ⟨spin_set_value_invariant s v hB, spin_set_value_boundsOk s v hB⟩

theorem spin_set_max_boundsOk (s : Spin) (m : Option Int) (hB : s.boundsOk = true) :
    (s.set_max_value m).boundsOk = true := by
  rcases s with ⟨mn, mx, v0⟩
  rcases m with _ | m <;> rcases mn with _ | mn <;> rcases mx with _ | mx <;>
    simp_all only [Spin.set_max_value, Spin.set_value, Spin.boundsOk, boundPairOk,
      Bool.and_eq_true, decide_eq_true_eq] <;>
    (repeat (first | trivial | omega | (split_ifs <;> (try simp_all))))

theorem spin_init_ok (mn mx : Option Int) (v : Int) (s : Spin)
    (h : Spin.init mn mx v = .ok s) :
    s.invariant = true ∧ s.boundsOk = true := by
  unfold Spin.init at h
  split at h
  case isTrue hok =>
    simp only [Except.ok.injEq] at h
    subst h
    refine ⟨spin_set_value_invariant _ v ?_, spin_set_value_boundsOk _ v ?_⟩ <;>
    · apply spin_set_max_boundsOk
      rcases mn with _ | mn
      · exact hok
      · dsimp only
        split_ifs with hlt
        · exact hok
        · exact hok
  case isFalse => exact absurd h (by simp)

theorem spin_muts_invariant (muts : List SpinMut) (s : Spin)
    (hI : s.invariant = true) (hB : s.boundsOk = true) :
    (muts.foldl Spin.apply s).invariant = true ∧
      (muts.foldl Spin.apply s).boundsOk = true := by
  induction muts generalizing s with
  | nil => exact ⟨hI, hB⟩
  | cons mu rest ih =>
      have h := spin_apply_preserves s mu hI hB
      exact ih (s.apply mu) h.1 h.2

theorem cal_set_selected_invariant (s : Calendar) (d : Int) (hI : s.invariant = true) :
    (s.set_selected_date d).invariant = true := by
  rcases s with ⟨lo, hi, d0⟩
  rcases lo with _ | lo <;> rcases hi with _ | hi <;>
    simp_all only [Calendar.set_selected_date, Calendar.invariant,
      Bool.and_eq_true, decide_eq_true_eq] <;>
    (repeat (first | trivial | omega | (split_ifs <;> (try simp_all))))

theorem cal_set_selected_boundsOk (s : Calendar) (d : Int) :
    (s.set_selected_date d).boundsOk = s.boundsOk := by
  unfold Calendar.set_selected_date
  split_ifs <;> rfl

theorem cal_set_upper_boundsOk (s : Calendar) (u : Option Int) (hB : s.boundsOk = true) :
    (s.set_upper_date u).boundsOk = true := by
  rcases s with ⟨lo, hi, d0⟩
  rcases u with _ | u <;> rcases lo with _ | lo <;> rcases hi with _ | hi <;>
    simp_all only [Calendar.set_upper_date, Calendar.set_selected_date, Calendar.boundsOk,
      boundPairOk, Bool.and_eq_true, decide_eq_true_eq] <;>
    (repeat (first | trivial | omega | (split_ifs <;> (try simp_all))))

theorem cal_set_upper_establishes (s : Calendar) (u : Option Int)
    (hc : boundPairOk s.lower_date u = true)
    (hlow : ∀ lo, s.lower_date = some lo → lo ≤ s.selected_date) :
    (s.set_upper_date u).invariant = true := by
  rcases s with ⟨lo, hi, d0⟩
  rcases u with _ | u <;> rcases lo with _ | lo <;> rcases hi with _ | hi <;>
    simp_all only [Calendar.set_upper_date, Calendar.set_selected_date, Calendar.invariant,
      boundPairOk, Bool.and_eq_true, decide_eq_true_eq, Option.some.injEq,
      forall_eq] <;>
    (repeat (first | trivial | omega | (split_ifs <;> (try simp_all))))

theorem cal_set_lower_preserves (s : Calendar) (m : Option Int)
    (hI : s.invariant = true) (hB : s.boundsOk = true) :
    (s.set_lower_date m).invariant = true ∧ (s.set_lower_date m).boundsOk = true := by
  rcases s with ⟨lo, hi, d0⟩
  rcases m with _ | m <;> rcases lo with _ | lo <;> rcases hi with _ | hi <;>
    simp_all only [Calendar.set_lower_date, Calendar.set_selected_date, Calendar.invariant,
      Calendar.boundsOk, boundPairOk, Bool.and_eq_true, decide_eq_true_eq] <;>
    (repeat (first | trivial | omega | (split_ifs <;> (try simp_all))))

theorem cal_set_upper_preserves (s : Calendar) (m : Option Int)
    (hI : s.invariant = true) (hB : s.boundsOk = true) :
    (s.set_upper_date m).invariant = true ∧ (s.set_upper_date m).boundsOk = true := by
  rcases s with ⟨lo, hi, d0⟩
  rcases m with _ | m <;> rcases lo with _ | lo <;> rcases hi with _ | hi <;>
    simp_all only [Calendar.set_upper_date, Calendar.set_selected_date, Calendar.invariant,
      Calendar.boundsOk, boundPairOk, Bool.and_eq_true, decide_eq_true_eq] <;>
    (repeat (first | trivial | omega | (split_ifs <;> (try simp_all))))

theorem cal_set_selected_preserves (s : Calendar) (d : Int)
    (hI : s.invariant = true) (hB : s.boundsOk = true) :
    (s.set_selected_date d).invariant = true ∧ (s.set_selected_date d).boundsOk = true := by
  refine ⟨cal_set_selected_invariant s d hI, ?_⟩
  rw [cal_set_selected_boundsOk]
  exact hB

theorem cal_apply_preserves (s : Calendar) (mu : CalMut)
    (hI : s.invariant = true) (hB : s.boundsOk = true) :
    (s.apply mu).invariant = true ∧ (s.apply mu).boundsOk = true := by
  cases mu with
  | set_lower m => exact cal_set_lower_preserves s m hI hB
  | set_upper m => exact cal_set_upper_preserves s m hI hB
  | set_selected d => exact cal_set_selected_preserves s d hI hB

theorem cal_set_selected_lower (s : Calendar) (d : Int) :
    (s.set_selected_date d).lower_date = s.lower_date := by
  unfold Calendar.set_selected_date
  split_ifs <;> rfl

theorem cal_set_selected_upper (s : Calendar) (d : Int) :
    (s.set_selected_date d).upper_date = s.upper_date := by
  unfold Calendar.set_selected_date
  split_ifs <;> rfl

theorem cal_init_ok (lo hi sel : Option Int) (today : Int) (s : Calendar)
    (h : Calendar.init lo hi sel today = .ok s) :
    s.invariant = true ∧ s.boundsOk = true := by
  unfold Calendar.init at h
  split at h
  case isTrue hok =>
    simp only [Except.ok.injEq] at h
    subst h
    generalize sel.getD today = d0
    have key : ∀ s1 : Calendar, s1.lower_date = lo → s1.upper_date = hi →
        (∀ x, s1.lower_date = some x → x ≤ s1.selected_date) →
        ∀ d1 : Int,
        ((s1.set_upper_date hi).set_selected_date d1).invariant = true ∧
        ((s1.set_upper_date hi).set_selected_date d1).boundsOk = true := by
      intro s1 hl hu hlow d1
      constructor
      · exact cal_set_selected_invariant _ _
          (cal_set_upper_establishes _ hi (by rw [hl]; exact hok) hlow)
      · rw [cal_set_selected_boundsOk]
        exact cal_set_upper_boundsOk _ hi
          (by unfold Calendar.boundsOk; rw [hl, hu]; exact hok)
    rcases lo with _ | lo
    · exact key _ rfl rfl (by intro x hx; simp at hx) d0
    · dsimp only
      split_ifs with hlt
      · refine key _ ?_ ?_ ?_ d0
        · rw [cal_set_selected_lower]
        · rw [cal_set_selected_upper]
        · intro x hx
          rw [cal_set_selected_lower] at hx
          simp only [Option.some.injEq] at hx
          subst hx
          rcases hi with _ | hi <;>
            simp_all only [Calendar.set_selected_date, boundPairOk, decide_eq_true_eq] <;>
            (repeat (first | trivial | omega | (split_ifs <;> (try simp_all))))
      · exact key _ rfl rfl
          (by intro x hx; simp only [Option.some.injEq] at hx; subst hx; dsimp only; omega) d0
  case isFalse => exact absurd h (by simp)

theorem cal_muts_invariant (muts : List CalMut) (s : Calendar)
    (hI : s.invariant = true) (hB : s.boundsOk = true) :
    (muts.foldl Calendar.apply s).invariant = true ∧
      (muts.foldl Calendar.apply s).boundsOk = true := by
  induction muts generalizing s with
  | nil => exact ⟨hI, hB⟩
  | cons mu rest ih =>
      have h := cal_apply_preserves s mu hI hB
      exact ih (s.apply mu) h.1 h.2

theorem radio_init_invariant (choices : Option (List String)) (nc sel : Int) :
    (RadioBox.init choices nc sel).invariant = true := by
  unfold RadioBox.init RadioBox.invariant
  rcases choices with _ | (_ | ⟨c, cs⟩) <;>
    simp_all only [List.length_replicate, Bool.and_eq_true, decide_eq_true_eq] <;>
    split_ifs <;> simp_all

theorem radio_apply_preserves (s : RadioBox) (mu : RadioMut)
    (hI : s.invariant = true) : (s.apply mu).invariant = true := by
  cases mu with
  | set_sel i =>
      simp only [RadioBox.apply, RadioBox.set_selection, RadioBox.invariant,
        Bool.and_eq_true, decide_eq_true_eq] at *
      split_ifs <;> simp_all
  | set_choice i str =>
      simp only [RadioBox.apply, RadioBox.set_choice, RadioBox.invariant,
        Bool.and_eq_true, decide_eq_true_eq] at *
      split_ifs <;> simp_all

theorem radio_muts_invariant (muts : List RadioMut) (s : RadioBox)
    (hI : s.invariant = true) :
    (muts.foldl RadioBox.apply s).invariant = true := by
  induction muts generalizing s with
  | nil => exact hI
  | cons mu rest ih => exact ih (s.apply mu) (radio_apply_preserves s mu hI)

/-- C1: for every bounded-value control and every finite sequence of
bound/value mutations applied through its public setters, after each mutation
the value lies within the current bounds: for a successfully constructed
SpinControl, min_value le value le max_value whenever the respective bound is
set; for a successfully constructed Calendar, lower_date le selected_date le
upper_date whenever the respective bound is set; for a RadioBox, 0 le
selection lt number of choices.  An arbitrary mutation list covers every
prefix, so the invariant holds after each mutation of any sequence. -/
theorem clamp_invariant_all_mutations :
    (∀ (mn mx : Option Int) (v : Int) (s0 : Spin) (muts : List SpinMut),
        Spin.init mn mx v = .ok s0 →
        (muts.foldl Spin.apply s0).invariant = true) ∧
    (∀ (lo hi sel : Option Int) (today : Int) (s0 : Calendar) (muts : List CalMut),
        Calendar.init lo hi sel today = .ok s0 →
        (muts.foldl Calendar.apply s0).invariant = true) ∧
    (∀ (choices : Option (List String)) (nc sel : Int) (muts : List RadioMut),
        (muts.foldl RadioBox.apply (RadioBox.init choices nc sel)).invariant = true) := by
  refine ⟨?_, ?_, ?_⟩
  · intro mn mx v s0 muts h
    have h0 := spin_init_ok mn mx v s0 h
    exact (spin_muts_invariant muts s0 h0.1 h0.2).1
  · intro lo hi sel today s0 muts h
    have h0 := cal_init_ok lo hi sel today s0 h
    exact (cal_muts_invariant muts s0 h0.1 h0.2).1
  · intro choices nc sel muts
    exact radio_muts_invariant muts _ (radio_init_invariant choices nc sel)

/-- C1 witness: the invariant theorem applied to one concrete control of each
kind with one concrete mutation. -/
theorem clamp_invariant_all_mutations_witness :
    ([SpinMut.set_min (some 7)].foldl Spin.apply
        { min_value := some 0, max_value := some 9, value := 5 }).invariant = true ∧
    ([CalMut.set_upper (some 3)].foldl Calendar.apply
        { lower_date := some 1, upper_date := some 9, selected_date := 5 }).invariant = true ∧
    ([RadioMut.set_sel 5].foldl RadioBox.apply
        (RadioBox.init (some ["a", "b", "c"]) 1 1)).invariant = true :=
  ⟨clamp_invariant_all_mutations.1 (some 0) (some 9) 5 _ [SpinMut.set_min (some 7)] rfl,
   clamp_invariant_all_mutations.2.1 (some 1) (some 9) (some 5) 0 _
     [CalMut.set_upper (some 3)] rfl,
   clamp_invariant_all_mutations.2.2 (some ["a", "b", "c"]) 1 1 [RadioMut.set_sel 5]⟩

/-- C6: for the Calendar constructed with lower_date 2024-01-01, upper_date
2024-12-31 and selected_date 2024-06-15, assigning upper_date 2024-05-01
updates the bound and clamps the selection down to 2024-05-01; in general,
whenever an accepted bound assignment leaves the current selection outside the
new bound, the selection is clamped to the violated bound. -/
theorem calendar_bound_assignment_clamps :
    ((Calendar.init (some 20240101) (some 20241231) (some 20240615) 20240101).map
        (fun s => ((s.set_upper_date (some 20240501)).upper_date,
                   (s.set_upper_date (some 20240501)).selected_date)) =
      .ok (some 20240501, 20240501)) ∧
    (∀ (s : Calendar) (u : Int), boundPairOk s.lower_date (some u) = true →
        u < s.selected_date →
        (s.set_upper_date (some u)).upper_date = some u ∧
        (s.set_upper_date (some u)).selected_date = u) ∧
    (∀ (s : Calendar) (l : Int), boundPairOk (some l) s.upper_date = true →
        s.selected_date < l →
        (s.set_lower_date (some l)).lower_date = some l ∧
        (s.set_lower_date (some l)).selected_date = l) := by
  refine ⟨rfl, ?_, ?_⟩
  · intro s u hc hv
    rcases s with ⟨lo, hi, d0⟩
    rcases lo with _ | lo <;> rcases hi with _ | hi <;>
      simp_all only [Calendar.set_upper_date, Calendar.set_selected_date,
        boundPairOk, Bool.and_eq_true, decide_eq_true_eq] <;>
      (repeat (first | trivial | omega | (split_ifs <;> (try simp_all))))
  · intro s l hc hv
    rcases s with ⟨lo, hi, d0⟩
    rcases lo with _ | lo <;> rcases hi with _ | hi <;>
      simp_all only [Calendar.set_lower_date, Calendar.set_selected_date,
        boundPairOk, Bool.and_eq_true, decide_eq_true_eq] <;>
      (repeat (first | trivial | omega | (split_ifs <;> (try simp_all))))

/-- C6 witness: the clamp theorem applied to a concrete calendar and bound. -/
theorem calendar_bound_assignment_clamps_witness :
    ({ lower_date := some 0, upper_date := some 10, selected_date := 8 :
        Calendar }.set_upper_date (some 5)).upper_date = some 5 ∧
    ({ lower_date := some 0, upper_date := some 10, selected_date := 8 :
        Calendar }.set_upper_date (some 5)).selected_date = 5 :=
  calendar_bound_assignment_clamps.2.1
    { lower_date := some 0, upper_date := some 10, selected_date := 8 } 5
    (by decide) (by decide)

/-- C2 counterexample: the Dialog class actually exported by initialize comes
from the frames hierarchy (src/qt/frames.py), whose show_modal override never
consults or sets the shown flag: two consecutive calls on the same fresh
dialog instance both return normally (here the second returns the pair below)
instead of raising the usage error, refuting the claim for that class. -/
theorem qt_frames_dialog_second_show_returns :
    DialogState.qt_frames_show_modal
        ((DialogState.qt_frames_show_modal
            { shown := false, return_value := false } true).1) false =
      ({ shown := false, return_value := false }, false) := rfl

/-- C2 (amended): building a menu a second time raises the designated usage
error, and for the windows-hierarchy AbstractDialog a second show_modal call
raises the designated usage error; the frames-hierarchy Dialog overrides
show_modal without the shown check, so the show-once error is not raised
there. -/
theorem build_once_and_show_once :
    (∀ (m : MenuCore) (inh : Bool), m.built = false →
        (∃ r, buildMenu m inh = .ok r) ∧
        ∀ r, buildMenu m inh = .ok r → ∀ inh2 : Bool,
          buildMenu r.1 inh2 = .error menuAlreadyBuiltMsg) ∧
    (∀ d : DialogState, d.shown = false →
        (∃ r, d.show_modal = .ok r) ∧
        ∀ r, d.show_modal = .ok r → r.1.show_modal = .error dialogShownMsg) := by
  constructor
  · intro m inh hm
    constructor
    · exact ⟨_, by simp only [buildMenu, hm]; rfl⟩
    · intro r hr inh2
      simp only [buildMenu, hm, Bool.false_eq_true, if_false, Except.ok.injEq] at hr
      subst hr
      simp [buildMenu]
  · intro d hd
    constructor
    · exact ⟨_, by simp only [DialogState.show_modal, hd]; rfl⟩
    · intro r hr
      simp only [DialogState.show_modal, hd, Bool.false_eq_true, if_false,
        Except.ok.injEq] at hr
      subst hr
      simp [DialogState.show_modal]

/-- C2 witness: the build-once and show-once theorem applied to a concrete
fresh menu and a concrete fresh dialog. -/
theorem build_once_and_show_once_witness :
    (∃ r, buildMenu freshDemoMenu false = .ok r) ∧
    (∃ r, DialogState.show_modal { shown := false, return_value := false } = .ok r) :=
  ⟨(build_once_and_show_once.1 freshDemoMenu false rfl).1,
   (build_once_and_show_once.2 { shown := false, return_value := false } rfl).1⟩

/-- C3: the close sequence of a window with the two children 1 and 2, under
the synchronous close-event dispatch of the qt and tk backends.  The first
child is closed and detaches itself from the child list the parent is
iterating, so the loop index skips the second child: child 2 is never closed,
its on_close hook never runs, and it stays in the child_views of the closed
parent, contradicting the documented close-all-children behavior. -/
theorem close_sequence_skips_second_child :
    ((closeWin 10 0 demoTree) 1).closed = true ∧
    ((closeWin 10 0 demoTree) 1).on_close_ran = true ∧
    ((closeWin 10 0 demoTree) 0).closed = true ∧
    ((closeWin 10 0 demoTree) 0).on_close_ran = true ∧
    ((closeWin 10 0 demoTree) 2).closed = false ∧
    ((closeWin 10 0 demoTree) 2).on_close_ran = false ∧
    ((closeWin 10 0 demoTree) 0).child_views = [2] :=
  ⟨rfl, rfl, rfl, rfl, rfl, rfl, rfl⟩

theorem appendItems_eq_flatMap (items : List (MenuTree × Bool × Bool)) (e : Bool) :
    appendItems items e =
      items.flatMap (fun t => appendItem t.1 (t.2.1 && e) t.2.2) := by
  induction items with
  | nil => rfl
  | cons t rest ih =>
      obtain ⟨item, se, sc⟩ := t
      simp [appendItems, ih]

mutual

theorem appendItem_length : ∀ (t : MenuTree) (e c : Bool),
    (appendItem t e c).length = t.leafCount
  | .node items, e, c => by
      simp only [appendItem, MenuTree.leafCount]
      exact appendItems_length items e
  | .sep, e, c => rfl
  | .str s, e, c => by
      simp only [appendItem, MenuTree.leafCount]
      split_ifs <;> rfl

theorem appendItems_length : ∀ (items : List (MenuTree × Bool × Bool)) (e : Bool),
    (appendItems items e).length = leafCountList items
  | [], _ => rfl
  | (item, se, sc) :: rest, e => by
      simp only [appendItems, leafCountList, List.length_append]
      rw [appendItem_length item (se && e) sc, appendItems_length rest e]

end

mutual

theorem appendItem_disabled : ∀ (t : MenuTree) (c : Bool), ∀ en ∈ appendItem t false c,
    en.enabled = false ∧ en.click = TTClick.noDispatch
  | .node items, c => by
      intro en hen
      simp only [appendItem] at hen
      exact appendItems_disabled items en hen
  | .sep, c => by
      intro en hen
      simp only [appendItem, List.mem_singleton] at hen
      subst hen
      exact ⟨rfl, rfl⟩
  | .str s, c => by
      intro en hen
      simp only [appendItem, Bool.false_eq_true, if_false, List.mem_singleton] at hen
      subst hen
      exact ⟨rfl, rfl⟩

theorem appendItems_disabled : ∀ (items : List (MenuTree × Bool × Bool)),
    ∀ en ∈ appendItems items false,
    en.enabled = false ∧ en.click = TTClick.noDispatch
  | [] => by intro en hen; simp [appendItems] at hen
  | (item, se, sc) :: rest => by
      intro en hen
      simp only [appendItems, Bool.and_false, List.mem_append] at hen
      rcases hen with hen | hen
      · exact appendItem_disabled item sc en hen
      · exact appendItems_disabled rest en hen

end

/-- C4: the constructed item list of a TextTimedMenu is flat: a nested
sub-menu contributes its items spliced inline with the enabled flag ANDed with
that of the enclosing sub-menu (first conjunct), every leaf item contributes
exactly one entry and a sub-menu node contributes none of its own (second
conjunct), every entry spliced from a disabled sub-menu carries the disabled
wiring with no click dispatch (third conjunct), and the concrete disabled
sub-menu with items A and B builds exactly the two disabled entries (fourth
conjunct). -/
theorem text_timed_menu_flattens_submenus :
    (∀ (items : List (MenuTree × Bool × Bool)) (e c : Bool),
        appendItem (.node items) e c =
          items.flatMap (fun t => appendItem t.1 (t.2.1 && e) t.2.2)) ∧
    (∀ (t : MenuTree) (e c : Bool), (appendItem t e c).length = t.leafCount) ∧
    (∀ (items : List (MenuTree × Bool × Bool)) (c : Bool),
        ∀ en ∈ appendItem (.node items) false c,
        en.enabled = false ∧ en.click = TTClick.noDispatch) ∧
    ((buildMenu disabledSubMenuDemo false).map (fun r => r.2) =
      .ok [{ label := some "A", enabled := false, click := TTClick.noDispatch },
           { label := some "B", enabled := false, click := TTClick.noDispatch }]) := by
  refine ⟨?_, appendItem_length, ?_, rfl⟩
  · intro items e c
    simp only [appendItem]
    exact appendItems_eq_flatMap items e
  · intro items c en hen
    simp only [appendItem] at hen
    exact appendItems_disabled items en hen

/-- C4 witness: the flatten theorem applied to a concrete one-item disabled
sub-menu. -/
theorem text_timed_menu_flattens_submenus_witness :
    let en : TTEntry := { label := some "A", enabled := false, click := TTClick.noDispatch }
    en.enabled = false ∧ en.click = TTClick.noDispatch :=
  text_timed_menu_flattens_submenus.2.2.1
    [(MenuTree.str "A", true, false)] true _ (by decide)

theorem tm_neutral_step (d t : Nat) (s : TimedMenuState) (e : TMEvent) (x : Nat)
    (he : e.cancels = false) (hf : e ≠ TMEvent.timer_fire)
    (ht : s.timer = some x) (hc : s.closed = false) :
    (tmStep d t s e).timer = some x ∧ (tmStep d t s e).closed = false := by
  cases e with
  | command_close => simp [tmStep, ht, hc]
  | enter_item i => simp [TMEvent.cancels] at he
  | leave_item i =>
      simp only [tmStep]
      split_ifs <;> simp_all
  | force_close => simp [TMEvent.cancels] at he
  | timer_fire => exact absurd rfl hf

theorem tm_close_requires_expiry (d : Nat) (evs : List (Nat × TMEvent))
    (s : TimedMenuState) (x : Nat)
    (ht : s.timer = some x) (hc : s.closed = false)
    (hcancel : ∀ te ∈ evs, te.2.cancels = false)
    (hvalid : tmValidFrom d s evs)
    (hclosed : (tmRun d s evs).closed = true) :
    ∃ te ∈ evs, te.2 = TMEvent.timer_fire ∧ te.1 = x := by
  induction evs generalizing s with
  | nil => simp [tmRun] at hclosed; simp_all
  | cons te rest ih =>
      obtain ⟨t, e⟩ := te
      by_cases hfire : e = TMEvent.timer_fire
      · subst hfire
        have hx : s.timer = some t := hvalid.1 rfl
        rw [ht] at hx
        injection hx with hx
        exact ⟨(t, TMEvent.timer_fire), by simp, rfl, hx.symm⟩
      · have hn := tm_neutral_step d t s e x
          (hcancel (t, e) (by simp)) hfire ht hc
        obtain ⟨te2, hmem, hfi, hti⟩ := ih (tmStep d t s e) hn.1 hn.2
          (fun u hu => hcancel u (by simp [hu])) hvalid.2 hclosed
        exact ⟨te2, by simp [hmem], hfi, hti⟩

/-- C5: the close protocol of a timed menu with delay d: a close command arms
the delay timer only when no timer is running and no child item reports
pointer-inside, and otherwise changes nothing; a pointer-enter on any item
before the timer expires cancels the timer and the menu stays open; while the
timer armed at an instant is neither cancelled nor fired the menu stays open,
and in a valid trace the closing fire happens exactly at the armed instant
plus d, so the menu transitions to closed no earlier than d after arming; a
forced close cancels any pending timer and closes immediately from any
state. -/
theorem timed_menu_close_protocol :
    (∀ (d t : Nat) (s : TimedMenuState),
        (s.timer = none ∧ s.mouse_inside_widget = false →
          (tmStep d t s .command_close).timer = some (t + d)) ∧
        (¬(s.timer = none ∧ s.mouse_inside_widget = false) →
          tmStep d t s .command_close = s)) ∧
    (∀ (d t : Nat) (s : TimedMenuState) (i : Nat), s.closed = false →
        (tmStep d t s (.enter_item i)).timer = none ∧
        (tmStep d t s (.enter_item i)).closed = false) ∧
    (∀ (d t0 : Nat) (s : TimedMenuState) (evs : List (Nat × TMEvent)),
        s.timer = some (t0 + d) → s.closed = false →
        (∀ te ∈ evs, te.2.cancels = false) →
        tmValidFrom d s evs →
        (tmRun d s evs).closed = true →
        ∃ te ∈ evs, te.2 = TMEvent.timer_fire ∧ te.1 = t0 + d) ∧
    (∀ (d t : Nat) (s : TimedMenuState),
        (tmStep d t s .force_close).closed = true ∧
        (tmStep d t s .force_close).timer = none) := by
  refine ⟨?_, ?_, ?_, ?_⟩
  · intro d t s
    constructor
    · intro h
      simp [tmStep, h.1, h.2]
    · intro h
      simp only [tmStep, if_neg h]
  · intro d t s i hc
    exact ⟨rfl, hc⟩
  · intro d t0 s evs ht hc hcancel hvalid hclosed
    exact tm_close_requires_expiry d evs s (t0 + d) ht hc hcancel hvalid hclosed
  · intro d t s
    exact ⟨rfl, rfl⟩

/-- C5 witness: the close protocol applied to a concrete menu with delay 200,
a close command at instant 1000 arming the timer for 1200, and a valid trace
consisting of the timer firing at 1200. -/
theorem timed_menu_close_protocol_witness :
    (tmStep 200 1000 { timer := none, closed := false, mouse_inside := [false] }
        TMEvent.command_close).timer = some 1200 ∧
    (∃ te ∈ [((1200 : Nat), TMEvent.timer_fire)],
        te.2 = TMEvent.timer_fire ∧ te.1 = 1200) :=
  ⟨(timed_menu_close_protocol.1 200 1000
      { timer := none, closed := false, mouse_inside := [false] }).1 (by decide),
   timed_menu_close_protocol.2.2.1 200 1000
     { timer := some 1200, closed := false, mouse_inside := [false] }
     [(1200, TMEvent.timer_fire)] rfl rfl (by decide)
     ⟨fun _ => rfl, trivial⟩ (by decide)⟩

/-- C7: the abstract RadioBox keeps a valid initial selection, silently
ignores an out-of-range selection write, and normalizes an empty choice list
to one empty-string choice; but the qt backend constructor assigns 0 to the
selection property after the abstract initializer runs, so a qt RadioBox
constructed with choices a, b, c and selection 1 reports selection 0,
contradicting the documented initial-selection contract that the wx and tk
backends honor. -/
theorem radiobox_qt_init_resets_selection :
    (RadioBox.init (some ["a", "b", "c"]) 1 1).selection = 1 ∧
    ((RadioBox.init (some ["a", "b", "c"]) 1 1).set_selection 5).selection = 1 ∧
    (RadioBox.init (some []) 1 0).choices = [""] ∧
    (RadioBox.qt_init (some ["a", "b", "c"]) 1 1).selection = 0 :=
  ⟨rfl, rfl, rfl, rfl⟩

/-- C8: constructing a SpinControl with both bounds set and inverted, or a
Calendar with both dates set and inverted, raises AttributeError instead of
silently correcting: the rejected first bound write leaves the attribute
still missing and the clamp line of the same setter then reads it.  On an
already constructed control the same inverted bound write is silently
ignored, as the last two conjuncts show. -/
theorem inverted_bounds_constructor_raises :
    Spin.init (some 5) (some 3) 0 =
      .error "AttributeError: object has no attribute _min_value" ∧
    Calendar.init (some 20240501) (some 20240101) none 20240301 =
      .error "AttributeError: object has no attribute _lower_date" ∧
    ({ min_value := some 0, max_value := some 9, value := 5 : Spin }.set_min_value
      (some 99)) = { min_value := some 0, max_value := some 9, value := 5 } ∧
    ({ lower_date := some 0, upper_date := some 9, selected_date := 5 :
      Calendar }.set_lower_date (some 99)) =
      { lower_date := some 0, upper_date := some 9, selected_date := 5 } :=
  ⟨rfl, rfl, rfl, rfl⟩

/-- C9: when the library is already initialized with a backend, initializing
again with a different backend name returns the already-initialized
ImportError naming that backend, and the global configuration is returned
unchanged by the failed call. -/
theorem reinitialize_different_gui_raises (import_ok : String → Bool)
    (st : LibGlobals) (g gui_request : String)
    (hg : st.gui_type = some g) (hne : gui_request ≠ g) :
    initialize_library import_ok st gui_request =
      (st, some (already_initialized_error_message g)) := by
  have h1 : (g != gui_request) = true := by
    simp only [bne_iff_ne, ne_eq]
    exact fun h => hne h.symm
  simp [initialize_library, hg, h1]

/-- C9 witness: reinitializing a qt-initialized library with wx. -/
theorem reinitialize_different_gui_raises_witness :
    initialize_library (fun _ => true)
        { gui_type := some "qt", loaded_backend := some "qt" } "wx" =
      ({ gui_type := some "qt", loaded_backend := some "qt" },
        some (already_initialized_error_message "qt")) :=
  reinitialize_different_gui_raises (fun _ => true)
    { gui_type := some "qt", loaded_backend := some "qt" } "qt" "wx" rfl (by decide)

/-- C10: accessing one of the attribute names wx, qt, tk on a library object
never raises: the name of the loaded gui returns the object itself and any
other supported gui name returns a dummy object; a missing attribute name
outside the supported guis raises AttributeError; every attribute of the
dummy object is a callable accepting any arguments and returning None. -/
theorem base_class_attribute_redirection :
    (∀ (gui_type : Option String) (class_name key : String), key ∈ supported_gui →
        (baseClassGetattr gui_type class_name key = .self_object ↔
          gui_type = some key) ∧
        (gui_type ≠ some key →
          baseClassGetattr gui_type class_name key = .dummy_object)) ∧
    (∀ (gui_type : Option String) (class_name key : String), key ∉ supported_gui →
        baseClassGetattr gui_type class_name key =
          .attribute_error (class_name ++ " object has no attribute " ++ key)) ∧
    (∀ (key : String) (args : List String) (kwargs : List (String × String)),
        dummyObjectAttr key args kwargs = none) := by
  refine ⟨?_, ?_, ?_⟩
  · intro gt cn key hk
    constructor
    · unfold baseClassGetattr
      rw [if_neg (not_not_intro hk)]
      split_ifs with he
      · exact ⟨fun _ => he.symm, fun _ => rfl⟩
      · constructor
        · intro h; exact absurd h (by simp)
        · intro h; exact absurd h.symm he
    · intro hne
      unfold baseClassGetattr
      rw [if_neg (not_not_intro hk), if_neg (fun he => hne he.symm)]
  · intro gt cn key hk
    unfold baseClassGetattr
    rw [if_pos hk]
  · intro key args kwargs
    rfl

/-- C10 witness: the redirection theorem applied to a qt-initialized library,
the non-loaded wx attribute and one dummy call. -/
theorem base_class_attribute_redirection_witness :
    baseClassGetattr (some "qt") "Frame" "wx" = AttrAccess.dummy_object ∧
    dummyObjectAttr "show" ["x"] [] = none :=
  ⟨(base_class_attribute_redirection.1 (some "qt") "Frame" "wx"
      (by decide)).2 (by decide),
   base_class_attribute_redirection.2.2 "show" ["x"] []⟩
